import Mathlib

/-!
# Verification of the flashcards CSV persistence layer

A shallow embedding of the persistence layer of `src/main.py` (a Flask
flashcards application storing its data in CSV files), together with
theorems checking the natural-language specification against it.

Modelling conventions:
* A CSV table that may or may not exist on disk is an `Option`: `none`
  models a missing file, `some rows` models an existing file whose data
  rows (below the header) are `rows`.
* A flashcard row of the current 9-column schema is the record
  `Flashcard`; a row read by Python's `csv.DictReader` from a file of
  unknown schema is an association list `List (String × String)`.
* Python `None` vs. string arguments (the image parameters of
  `update_flashcard`) are modelled by `Option String`: `none` is Python
  `None`, `some s` is the string `s`.  The Python default value of the
  image parameters is the empty string, i.e. `some ""` — a call that
  omits the argument passes `some ""`.
* Python's `str.lower` is modelled by `lower`, `int(...)` on a string
  by `str_to_int`, and the substring test `a in b` by `has_substr`, all
  defined below as executable functions on character lists.
* Functions that rewrite the file return `Bool × Option table`: the
  Python return value paired with the resulting file state.
-/

namespace FlashcardsApp

/-- Model of Python's `str.lower()`: lower-case every character. -/
def lower (s : String) : String := String.mk (s.data.map Char.toLower)

/-- Accumulator loop for decimal digit parsing: `none` as soon as a
non-digit character is met. -/
def chars_to_nat_aux : Nat → List Char → Option Nat
  | acc, [] => some acc
  | acc, c :: cs =>
    if c.isDigit then chars_to_nat_aux (10 * acc + (c.toNat - 48)) cs else none

/-- Model of Python's `int(...)` applied to a string: an optional sign
followed by at least one decimal digit; anything else raises
`ValueError`, modelled as `none`. -/
def str_to_int : String → Option Int := fun s =>
  match s.data with
  | [] => none
  | c :: cs =>
    if c == '-' then
      match cs with
      | [] => none
      | _ => (chars_to_nat_aux 0 cs).map (fun n => -(n : Int))
    else if c == '+' then
      match cs with
      | [] => none
      | _ => (chars_to_nat_aux 0 cs).map (fun n => (n : Int))
    else (chars_to_nat_aux 0 (c :: cs)).map (fun n => (n : Int))

/-- A data row of `flashcards.csv` under the current 9-column schema
(`id, user_email, name, question, answer, image_question, image_answer,
collection, created_at`).  All values are strings, as in the CSV file. -/
structure Flashcard where
  id : String
  user_email : String
  name : String
  question : String
  answer : String
  image_question : String
  image_answer : String
  collection : String
  created_at : String
deriving Repr, DecidableEq

/-- The dictionary returned by `get_flashcard_by_id` in `src/main.py`
(lines 361–371): every field of the row except `user_email`. -/
structure CardView where
  id : String
  name : String
  question : String
  answer : String
  image_question : String
  image_answer : String
  collection : String
  created_at : String
deriving Repr, DecidableEq

/-- The view of a stored row built by `get_flashcard_by_id`. -/
def Flashcard.view (c : Flashcard) : CardView :=
  { id := c.id, name := c.name, question := c.question, answer := c.answer,
    image_question := c.image_question, image_answer := c.image_answer,
    collection := c.collection, created_at := c.created_at }

/-- Whether a row matches the requested card id and owner email:
`row['id'] == str(card_id) and row['user_email'].lower() == user_email.lower()`
(`src/main.py`, lines 293, 333, 361). -/
def matches_card (card_id : Int) (user_email : String) (r : Flashcard) : Bool :=
  r.id == toString card_id && lower r.user_email == lower user_email

/-- The loop body of `update_flashcard` (`src/main.py`, lines 291–304):
a matching row has `name`/`question`/`answer`/`collection` overwritten
unconditionally and each image field overwritten exactly when the
corresponding argument `is not None`; any other row is kept as is.
`image_question`/`image_answer` are `Option String` with `none` for
Python `None`; the Python default of both parameters is `some ""`. -/
def update_row (card_id : Int) (user_email name question answer collection : String)
    (image_question image_answer : Option String) (r : Flashcard) : Flashcard :=
  if matches_card card_id user_email r then
    { r with
      name := name, question := question, answer := answer, collection := collection,
      image_question := image_question.getD r.image_question,
      image_answer := image_answer.getD r.image_answer }
  else r

/-- `update_flashcard` (`src/main.py`, lines 268–313).  Returns `False`
when the file is missing; otherwise rebuilds the row list by the loop of
lines 291–304 (each row appended, a matching one updated first),
rewrites the file and returns `True`. -/
def update_flashcard (card_id : Int) (user_email name question answer collection : String)
    (image_question image_answer : Option String)
    (table : Option (List Flashcard)) : Bool × Option (List Flashcard) :=
  match table with
  | none => (false, none)
  | some rows =>
    (true, some (rows.foldl (fun acc r =>
      acc ++ [update_row card_id user_email name question answer collection
        image_question image_answer r]) []))

/-- `delete_flashcard` (`src/main.py`, lines 315–343).  Returns `False`
when the file is missing; otherwise keeps every row that does not match
both id and owner, rewrites the file and returns `True`. -/
def delete_flashcard (card_id : Int) (user_email : String)
    (table : Option (List Flashcard)) : Bool × Option (List Flashcard) :=
  match table with
  | none => (false, none)
  | some rows =>
    (true, some (rows.foldl (fun acc r =>
      if !(matches_card card_id user_email r) then acc ++ [r] else acc) []))

/-- The row condition of `delete_collection` (`src/main.py`, line 640):
`row['collection'] == collection_name and row['user_email'].lower() ==
user_email.lower()` — the collection name exactly, the owner
case-insensitively. -/
def matches_collection (collection_name user_email : String) (r : Flashcard) : Bool :=
  r.collection == collection_name && lower r.user_email == lower user_email

/-- `delete_collection` (`src/main.py`, lines 621–650).  Returns `False`
when the file is missing; otherwise keeps every row that does not match
both the collection name (exact) and the owner (case-insensitive),
rewrites the file and returns `True`. -/
def delete_collection (collection_name user_email : String)
    (table : Option (List Flashcard)) : Bool × Option (List Flashcard) :=
  match table with
  | none => (false, none)
  | some rows =>
    (true, some (rows.foldl (fun acc r =>
      if !(matches_collection collection_name user_email r)
      then acc ++ [r] else acc) []))

/-- The scan loop of `get_flashcard_by_id` (`src/main.py`, lines
358–371): return the view of the first row matching id and owner. -/
def find_card (card_id : Int) (user_email : String) : List Flashcard → Option CardView
  | [] => none
  | r :: rest =>
    if matches_card card_id user_email r then some r.view
    else find_card card_id user_email rest

/-- `get_flashcard_by_id` (`src/main.py`, lines 345–372).  `none` when
the file is missing or no row matches both id and owner. -/
def get_flashcard_by_id (card_id : Int) (user_email : String)
    (table : Option (List Flashcard)) : Option CardView :=
  match table with
  | none => none
  | some rows => find_card card_id user_email rows

/-- The loop body of `get_next_flashcard_id` (`src/main.py`, lines
187–194): fold a row into the running maximum when its `id` parses as
an integer, otherwise skip it (`ValueError` branch). -/
def next_id_step (max_id : Int) (r : Flashcard) : Int :=
  match str_to_int r.id with
  | some k => max max_id k
  | none => max_id

/-- `get_next_flashcard_id` (`src/main.py`, lines 175–195): 1 when the
file is missing; otherwise one more than a running maximum that starts
at 0 and folds in every `id` field that parses as an integer (rows whose
`id` does not parse are skipped). -/
def get_next_flashcard_id (table : Option (List Flashcard)) : Int :=
  match table with
  | none => 1
  | some rows => (rows.foldl next_id_step 0) + 1

/-! ## User service (`users.csv`) -/

/-- A data row of `users.csv` (`name, email, password, created_at`). -/
structure UserRow where
  name : String
  email : String
  password : String
  created_at : String
deriving Repr, DecidableEq

/-- `email_exists` (`src/main.py`, lines 125–143): `False` when the
users file is missing, otherwise whether some row's email equals the
given one case-insensitively. -/
def email_exists (email : String) (users : Option (List UserRow)) : Bool :=
  match users with
  | none => false
  | some rows => rows.any (fun u => lower u.email == lower email)

/-- Python truthiness of an optional form value: `request.form.get`
yields `None` for an absent field; `all([...])` rejects `None` and the
empty string. -/
def is_truthy (o : Option String) : Bool :=
  match o with
  | none => false
  | some s => s != ""

/-- The outcome of the `register` route (`src/main.py`, lines 542–586):
one constructor per distinct flash message. -/
inductive RegisterResult where
  | missingFields
  | passwordMismatch
  | passwordTooShort
  | emailTaken
  | success
deriving Repr, DecidableEq

/-- `register` (`src/main.py`, lines 542–586).  Form values are
`Option String` (`none` for an absent field).  Checks, in order: all
four fields truthy; `password == confirm_password`; password length at
least 6; email not already registered.  On success the users file is
initialised if absent (`init_users_csv`) and the new row is appended
with the generated timestamp `now`; on failure the file is untouched. -/
def register (name email password confirm_password : Option String) (now : String)
    (users : Option (List UserRow)) : RegisterResult × Option (List UserRow) :=
  if !(is_truthy name && is_truthy email && is_truthy password && is_truthy confirm_password)
  then (.missingFields, users)
  else if password != confirm_password then (.passwordMismatch, users)
  else if (password.getD "").length < 6 then (.passwordTooShort, users)
  else if email_exists (email.getD "") users then (.emailTaken, users)
  else (.success, some ((users.getD []) ++
    [{ name := name.getD "", email := email.getD "",
       password := password.getD "", created_at := now }]))

/-! ## Migration (`migrate_flashcards_csv`) -/

/-- Does the character list `pat` occur contiguously at the head? -/
def chars_has_prefix : List Char → List Char → Bool
  | _, [] => true
  | [], _ :: _ => false
  | c :: cs, d :: ds => c == d && chars_has_prefix cs ds

/-- Does the character list `pat` occur contiguously anywhere? -/
def chars_has_substr : List Char → List Char → Bool
  | [], pat => pat.isEmpty
  | s@(_ :: rest), pat => chars_has_prefix s pat || chars_has_substr rest pat

/-- Model of Python's substring test `pat in s`. -/
def has_substr (s pat : String) : Bool := chars_has_substr s.data pat.data

/-- The header test of `migrate_flashcards_csv` (`src/main.py`, line
71): the raw first line contains the four substrings `id`,
`collection`, `name` and `image_question`. -/
def already_migrated (first_line : String) : Bool :=
  has_substr first_line "id" && has_substr first_line "collection" &&
  has_substr first_line "name" && has_substr first_line "image_question"

/-- A row produced by `csv.DictReader`: an association list from column
name to value (column names are distinct in a CSV header). -/
abbrev DictRow := List (String × String)

/-- Python `row.get(k, d)`. -/
def dict_get (row : DictRow) (k d : String) : String :=
  match List.lookup k row with
  | some v => v
  | none => d

/-- The flashcards file as read or written: the raw header line and the
data rows below it. -/
structure CsvFile where
  headerLine : String
  rows : List DictRow
deriving Repr, DecidableEq

/-- The on-disk state touched by `migrate_flashcards_csv`: the
flashcards file (if present) and the contents of the backup files
written so far (the code never overwrites an existing backup — a fresh
timestamped name is used instead, modelled by appending to this list). -/
structure FileState where
  flashcards : Option CsvFile
  backups : List CsvFile
deriving Repr, DecidableEq

/-- The header line written by the migration (`src/main.py`, line 103;
`csv.writer` joins the column names with commas). -/
def new_header_line : String :=
  "id,user_email,name,question,answer,image_question,image_answer,collection,created_at"

/-- The row written for a migrated card (`src/main.py`, line 105), as
re-read by a `DictReader` under the new header. -/
def Flashcard.to_row (c : Flashcard) : DictRow :=
  [("id", c.id), ("user_email", c.user_email), ("name", c.name),
   ("question", c.question), ("answer", c.answer),
   ("image_question", c.image_question), ("image_answer", c.image_answer),
   ("collection", c.collection), ("created_at", c.created_at)]

/-- The migration loop (`src/main.py`, lines 87–98): the row at
1-based position `i` becomes a card with `id := i`; `name`,
`image_question`, `image_answer` and `collection` default to `""` when
the column is absent; `user_email`, `question`, `answer` and
`created_at` are read with `row[...]`, whose `KeyError` on an absent
column is modelled by `none`. -/
def migrate_rows : Nat → List DictRow → Option (List Flashcard)
  | _, [] => some []
  | i, row :: rest =>
    match List.lookup "user_email" row, List.lookup "question" row,
          List.lookup "answer" row, List.lookup "created_at" row with
    | some ue, some q, some a, some ca =>
      match migrate_rows (i + 1) rest with
      | some cards =>
        some ({ id := toString i, user_email := ue,
                name := dict_get row "name" "",
                question := q, answer := a,
                image_question := dict_get row "image_question" "",
                image_answer := dict_get row "image_answer" "",
                collection := dict_get row "collection" "",
                created_at := ca } :: cards)
      | none => none
    | _, _, _, _ => none

/-- `migrate_flashcards_csv` (`src/main.py`, lines 55–105).  Returns
the new file state, or `none` when the migration loop raises
(`KeyError` on a row missing a required legacy column).  When the file
is absent or its header already carries the four markers, the state is
returned unchanged; otherwise the original file becomes a new backup
and the canonical path is rewritten with the migrated rows under the
current header. -/
def migrate_flashcards_csv (st : FileState) : Option FileState :=
  match st.flashcards with
  | none => some st
  | some file =>
    if already_migrated file.headerLine then some st
    else
      match migrate_rows 1 file.rows with
      | none => none
      | some cards =>
        some { flashcards := some { headerLine := new_header_line,
                                    rows := cards.map Flashcard.to_row },
               backups := st.backups ++ [file] }

/-! ## Concrete rows used in the counterexamples and witnesses -/

/-- A sample stored flashcard row. -/
def sample_card : Flashcard :=
  { id := "1", user_email := "a@b.c", name := "n", question := "q", answer := "ans",
    image_question := "", image_answer := "", collection := "", created_at := "t" }

/-- A legacy data row that already carries an `id` value. -/
def c2_legacy_row : DictRow :=
  [("id", "5"), ("user_email", "a@b.c"), ("question", "q"),
   ("answer", "ans"), ("created_at", "t")]

/-- A legacy flashcards file whose header has an `id` column but none of
`name`, `collection`, `image_question`. -/
def c2_legacy_file : CsvFile :=
  { headerLine := "id,user_email,question,answer,created_at", rows := [c2_legacy_row] }

/-- What the migration writes for `c2_legacy_row`: note the `id` value
`"1"`, not the stored `"5"`. -/
def c2_migrated_row : DictRow :=
  [("id", "1"), ("user_email", "a@b.c"), ("name", ""), ("question", "q"),
   ("answer", "ans"), ("image_question", ""), ("image_answer", ""),
   ("collection", ""), ("created_at", "t")]

/-- A data row of the canonical 4-column legacy format. -/
def legacy4_row (ue q a t : String) : DictRow :=
  [("user_email", ue), ("question", q), ("answer", a), ("created_at", t)]

/-- The canonical legacy flashcards file: header
`user_email,question,answer,created_at` and three rows. -/
def legacy4_file : CsvFile :=
  { headerLine := "user_email,question,answer,created_at",
    rows := [legacy4_row "a@b.c" "2+2?" "4" "t1", legacy4_row "a@b.c" "3+3?" "6" "t2",
             legacy4_row "d@e.f" "q3" "ans3" "t3"] }

/-! ## Helper lemmas -/

/-- An append-one-by-one fold (the Python pattern
`acc = []; for r in rows: acc.append(f(r))`) builds `acc ++ map f`. -/
theorem foldl_append_map {α β : Type} (f : α → β) (l : List α) :
    ∀ acc : List β, l.foldl (fun a r => a ++ [f r]) acc = acc ++ l.map f := by
  induction l with
  | nil => intro acc; simp
  | cons r rest ih => intro acc; simp [ih]

/-- A conditional append fold (the Python pattern
`acc = []; for r in rows: if p(r): acc.append(r)`) builds
`acc ++ filter p`. -/
theorem foldl_append_filter {α : Type} (p : α → Bool) (l : List α) :
    ∀ acc : List α,
      l.foldl (fun a r => if p r then a ++ [r] else a) acc = acc ++ l.filter p := by
  induction l with
  | nil => intro acc; simp
  | cons r rest ih =>
    intro acc
    by_cases h : p r = true
    · simp [h, ih]
    · simp [List.filter_cons, h, ih]

theorem next_id_step_ge (m : Int) (r : Flashcard) : m ≤ next_id_step m r := by
  unfold next_id_step
  cases str_to_int r.id with
  | none => exact le_refl m
  | some k => exact le_max_left m k

theorem foldl_next_ge (l : List Flashcard) : ∀ m : Int, m ≤ l.foldl next_id_step m := by
  induction l with
  | nil => intro m; simp
  | cons r rest ih =>
    intro m
    rw [List.foldl_cons]
    exact le_trans (next_id_step_ge m r) (ih _)

theorem foldl_next_mem (l : List Flashcard) :
    ∀ (m : Int) (r : Flashcard) (k : Int), r ∈ l → str_to_int r.id = some k →
      k ≤ l.foldl next_id_step m := by
  induction l with
  | nil => intro m r k hmem _; exact absurd hmem (List.not_mem_nil r)
  | cons a rest ih =>
    intro m r k hmem hk
    rw [List.foldl_cons]
    rcases List.mem_cons.mp hmem with h | h
    · subst h
      refine le_trans ?_ (foldl_next_ge rest _)
      unfold next_id_step
      rw [hk]
      exact le_max_right m k
    · exact ih _ r k h hk

theorem foldl_next_cases (l : List Flashcard) :
    ∀ m : Int, l.foldl next_id_step m = m ∨
      ∃ r, r ∈ l ∧ str_to_int r.id = some (l.foldl next_id_step m) := by
  induction l with
  | nil => intro m; left; rfl
  | cons a rest ih =>
    intro m
    rw [List.foldl_cons]
    rcases ih (next_id_step m a) with h | h
    · rw [h]
      cases hk : str_to_int a.id with
      | none =>
        left
        unfold next_id_step
        rw [hk]
      | some k =>
        have hstep : next_id_step m a = max m k := by
          unfold next_id_step
          rw [hk]
        rcases le_or_lt k m with hle | hlt
        · left
          rw [hstep]
          exact max_eq_left hle
        · right
          refine ⟨a, List.mem_cons_self a rest, ?_⟩
          rw [hstep, hk, max_eq_right (le_of_lt hlt)]
    · rcases h with ⟨r, hr, hk⟩
      right
      exact ⟨r, List.mem_cons_of_mem a hr, hk⟩

theorem matches_card_iff (card_id : Int) (e : String) (r : Flashcard) :
    matches_card card_id e r = true ↔
      (r.id = toString card_id ∧ lower r.user_email = lower e) := by
  simp [matches_card]

/-- `find_card` returns a stored row when its id occurs only once in
the table and its owner matches the queried email case-insensitively. -/
theorem find_card_unique (card_id : Int) (e : String) :
    ∀ (rows : List Flashcard) (c : Flashcard), (rows.map Flashcard.id).Nodup →
      c ∈ rows → c.id = toString card_id → lower c.user_email = lower e →
      find_card card_id e rows = some c.view := by
  intro rows
  induction rows with
  | nil => intro c _ hmem; exact absurd hmem (List.not_mem_nil c)
  | cons r rest ih =>
    intro c hnd hmem hid hmail
    rw [List.map_cons, List.nodup_cons] at hnd
    cases hm : matches_card card_id e r with
    | true =>
      have heq : find_card card_id e (r :: rest) = some r.view := by
        simp [find_card, hm]
      rcases List.mem_cons.mp hmem with h | h
      · rw [heq, h]
      · exfalso
        rcases (matches_card_iff card_id e r).mp hm with ⟨hrid, _⟩
        exact hnd.1 (by rw [hrid, ← hid]; exact List.mem_map_of_mem Flashcard.id h)
    | false =>
      have heq : find_card card_id e (r :: rest) = find_card card_id e rest := by
        simp [find_card, hm]
      rcases List.mem_cons.mp hmem with h | h
      · exfalso
        have ht : matches_card card_id e r = true :=
          (matches_card_iff card_id e r).mpr ⟨h ▸ hid, h ▸ hmail⟩
        rw [hm] at ht
        exact Bool.false_ne_true ht
      · rw [heq]
        exact ih c hnd.2 h hid hmail

/-- `find_card` misses when no row carries both the queried id and a
case-insensitively matching owner. -/
theorem find_card_none (card_id : Int) (e : String) :
    ∀ rows : List Flashcard,
      (∀ c ∈ rows, c.id = toString card_id → lower c.user_email ≠ lower e) →
      find_card card_id e rows = none := by
  intro rows
  induction rows with
  | nil => intro _; rfl
  | cons r rest ih =>
    intro h
    cases hm : matches_card card_id e r with
    | true =>
      exfalso
      rcases (matches_card_iff card_id e r).mp hm with ⟨hrid, hmail⟩
      exact h r (List.mem_cons_self r rest) hrid hmail
    | false =>
      have heq : find_card card_id e (r :: rest) = find_card card_id e rest := by
        simp [find_card, hm]
      rw [heq]
      exact ih (fun c hc => h c (List.mem_cons_of_mem r hc))

/-- `dict_get` returns the stored value when the key is present. -/
theorem dict_get_present (row : DictRow) (k v : String)
    (h : List.lookup k row = some v) : dict_get row k "" = v := by
  simp [dict_get, h]

/-- A row has the four columns every legacy flashcards file carries
(`user_email`, `question`, `answer`, `created_at`), so reading it with
`row[...]` cannot raise `KeyError`. -/
abbrev legacy_keys_ok (row : DictRow) : Prop :=
  (List.lookup "user_email" row).isSome ∧ (List.lookup "question" row).isSome ∧
  (List.lookup "answer" row).isSome ∧ (List.lookup "created_at" row).isSome

/-- Full characterisation of the migration loop: when every row carries
the required legacy columns the loop succeeds, keeps one output card per
input row in order, gives the card at 0-based position `j` the id
`i + j` (the loop enumerates from `i`) regardless of any stored `id`
value, defaults the new columns to `""` when absent, and copies the
remaining columns verbatim. -/
theorem migrate_rows_spec :
    ∀ (rows : List DictRow) (i : Nat), (∀ row ∈ rows, legacy_keys_ok row) →
      ∃ cards, migrate_rows i rows = some cards ∧ cards.length = rows.length ∧
        ∀ (j : Nat) (hj : j < rows.length) (hj2 : j < cards.length),
          cards.get ⟨j, hj2⟩ =
            { id := toString (i + j),
              user_email := dict_get (rows.get ⟨j, hj⟩) "user_email" "",
              name := dict_get (rows.get ⟨j, hj⟩) "name" "",
              question := dict_get (rows.get ⟨j, hj⟩) "question" "",
              answer := dict_get (rows.get ⟨j, hj⟩) "answer" "",
              image_question := dict_get (rows.get ⟨j, hj⟩) "image_question" "",
              image_answer := dict_get (rows.get ⟨j, hj⟩) "image_answer" "",
              collection := dict_get (rows.get ⟨j, hj⟩) "collection" "",
              created_at := dict_get (rows.get ⟨j, hj⟩) "created_at" "" } := by
  intro rows
  induction rows with
  | nil =>
    intro i _
    exact ⟨[], rfl, rfl, fun j hj _ => absurd hj (Nat.not_lt_zero j)⟩
  | cons row rest ih =>
    intro i h
    obtain ⟨h1, h2, h3, h4⟩ := h row (List.mem_cons_self row rest)
    obtain ⟨ue, hue⟩ := Option.isSome_iff_exists.mp h1
    obtain ⟨q, hq⟩ := Option.isSome_iff_exists.mp h2
    obtain ⟨a, ha⟩ := Option.isSome_iff_exists.mp h3
    obtain ⟨ca, hca⟩ := Option.isSome_iff_exists.mp h4
    obtain ⟨cards, hc, hlen, hpt⟩ := ih (i + 1) (fun r hr => h r (List.mem_cons_of_mem row hr))
    refine ⟨{ id := toString i, user_email := ue, name := dict_get row "name" "",
              question := q, answer := a,
              image_question := dict_get row "image_question" "",
              image_answer := dict_get row "image_answer" "",
              collection := dict_get row "collection" "",
              created_at := ca } :: cards, ?_, ?_, ?_⟩
    · unfold migrate_rows
      rw [hue, hq, ha, hca, hc]
    · simp [hlen]
    · intro j hj hj2
      cases j with
      | zero =>
        show _ = Flashcard.mk (toString (i + 0)) (dict_get row "user_email" "")
          (dict_get row "name" "") (dict_get row "question" "") (dict_get row "answer" "")
          (dict_get row "image_question" "") (dict_get row "image_answer" "")
          (dict_get row "collection" "") (dict_get row "created_at" "")
        rw [dict_get_present row "user_email" ue hue, dict_get_present row "question" q hq,
          dict_get_present row "answer" a ha, dict_get_present row "created_at" ca hca]
        rfl
      | succ j =>
        have hj' : j < rest.length := Nat.lt_of_succ_lt_succ (by simpa using hj)
        have hj2' : j < cards.length := Nat.lt_of_succ_lt_succ (by simpa using hj2)
        have hstep := hpt j hj' hj2'
        have harith : i + 1 + j = i + (j + 1) := by omega
        show cards.get ⟨j, hj2'⟩ = _
        rw [hstep, harith]
        rfl

/-! ## Claim theorems -/

/-- Claim C10: when the flashcards file does not exist,
`update_flashcard`, `delete_flashcard` and `delete_collection` return
`False` and `get_flashcard_by_id` returns `None`, and none of them
creates the file or changes any persisted state (the file state stays
`none`). -/
theorem missing_file_noop :
    ∀ (card_id : Int) (e nm q a coll cname : String) (iq ia : Option String),
      update_flashcard card_id e nm q a coll iq ia none = (false, none) ∧
      delete_flashcard card_id e none = (false, none) ∧
      delete_collection cname e none = (false, none) ∧
      get_flashcard_by_id card_id e none = none := by
  intro card_id e nm q a coll cname iq ia
  exact ⟨rfl, rfl, rfl, rfl⟩

/-- Claim C8, evaluated at the failing input: the table exists and holds
one card with id `1` owned by `bob@x.com`; updating card `2` as
`alice@y.com` matches no row, yet `update_flashcard` still returns
`True` (the claim says it reports failure when no matching row exists;
the code returns `True` whenever the file exists). -/
theorem update_returns_true_without_match :
    update_flashcard 2 "alice@y.com" "n2" "q2" "a2" "" (some "") (some "")
      (some [{ sample_card with user_email := "bob@x.com" }]) =
      (true, some [{ sample_card with user_email := "bob@x.com" }]) := by
  decide

/-- Claim C9, evaluated at the failing input: the table exists and holds
one card with id `1` owned by `bob@x.com`; deleting card `2` as
`alice@y.com` removes nothing, yet `delete_flashcard` still returns
`True` (the claim says it reports failure when nothing was removed; the
code returns `True` whenever the file exists). -/
theorem delete_returns_true_without_match :
    delete_flashcard 2 "alice@y.com"
      (some [{ sample_card with user_email := "bob@x.com", collection := "Math" }]) =
      (true, some [{ sample_card with user_email := "bob@x.com", collection := "Math" }]) := by
  decide

/-- Claim C7: `delete_collection` keeps exactly the rows that do not
match both the collection name (exact, case-sensitive) and the owner
email (case-insensitive), each kept row unchanged and in the original
order — i.e. the result is a `filter` of the input table. -/
theorem delete_collection_exact :
    ∀ (cname e : String) (rows : List Flashcard),
      (delete_collection cname e (some rows)).2 =
        some (rows.filter (fun r => !(matches_collection cname e r))) ∧
      ∀ r : Flashcard,
        r ∈ rows.filter (fun r => !(matches_collection cname e r)) ↔
          (r ∈ rows ∧ ¬(r.collection = cname ∧ lower r.user_email = lower e)) := by
  intro cname e rows
  constructor
  · show (true, some (rows.foldl
      (fun acc r => if !(matches_collection cname e r) then acc ++ [r] else acc) [])).2 = _
    rw [foldl_append_filter (fun r => !(matches_collection cname e r)) rows []]
    rfl
  · intro r
    simp only [List.mem_filter, matches_collection, Bool.not_eq_true', Bool.and_eq_false_iff,
      beq_eq_false_iff_ne, ne_eq]
    tauto

/-- Claim C3: when the flashcards file is absent there is nothing to do,
and when its header line already contains the four markers (`id`,
`name`, `collection`, `image_question`) the migration returns with the
state untouched; moreover any state a successful migration produces is a
fixed point, so a second run changes nothing and adds no backup. -/
theorem migrate_noop_when_migrated (st : FileState) :
    (∀ file : CsvFile, st.flashcards = some file →
      already_migrated file.headerLine = true → migrate_flashcards_csv st = some st) ∧
    (∀ st' : FileState, migrate_flashcards_csv st = some st' →
      migrate_flashcards_csv st' = some st') := by
  constructor
  · intro file hf hm
    simp [migrate_flashcards_csv, hf, hm]
  · intro st' h
    cases hf : st.flashcards with
    | none =>
      simp [migrate_flashcards_csv, hf] at h
      subst h
      simp [migrate_flashcards_csv, hf]
    | some file =>
      by_cases hm : already_migrated file.headerLine = true
      · simp [migrate_flashcards_csv, hf, hm] at h
        subst h
        simp [migrate_flashcards_csv, hf, hm]
      · cases hmr : migrate_rows 1 file.rows with
        | none => simp [migrate_flashcards_csv, hf, hm, hmr] at h
        | some cards =>
          simp [migrate_flashcards_csv, hf, hm, hmr] at h
          have hnew : already_migrated new_header_line = true := by decide
          simp [migrate_flashcards_csv, ← h, hnew]

/-- Witness for C3: a file already under the new header is left exactly
as it is. -/
theorem migrate_noop_witness :
    migrate_flashcards_csv { flashcards := some { headerLine := new_header_line, rows := [] },
                             backups := [] } =
      some { flashcards := some { headerLine := new_header_line, rows := [] }, backups := [] } :=
  (migrate_noop_when_migrated _).1 _ rfl (by decide)

/-- Claim C1 (amended): on an existing table, `update_flashcard` maps
every row through the loop body `update_row`; a row matching id+owner
gets `name`/`question`/`answer`/`collection` overwritten unconditionally
while each image field is overwritten exactly when the corresponding
argument is not Python `None` — in particular an explicit empty string
clears the stored image, and since the parameter default is the empty
string (not `None`), a call that omits the image argument also clears
it; only an explicit `None` preserves the stored value.  Non-matching
rows are untouched. -/
theorem update_flashcard_image_semantics :
    ∀ (card_id : Int) (e nm q a coll : String) (iq ia : Option String) (rows : List Flashcard),
      update_flashcard card_id e nm q a coll iq ia (some rows) =
        (true, some (rows.map (update_row card_id e nm q a coll iq ia))) ∧
      ∀ r : Flashcard,
        (matches_card card_id e r = true →
          update_row card_id e nm q a coll iq ia r =
            { r with
              name := nm, question := q, answer := a, collection := coll,
              image_question := iq.getD r.image_question,
              image_answer := ia.getD r.image_answer }) ∧
        (matches_card card_id e r = false →
          update_row card_id e nm q a coll iq ia r = r) ∧
        (matches_card card_id e r = true →
          (update_row card_id e nm q a coll (some "") (some "") r).image_question = "" ∧
          (update_row card_id e nm q a coll (some "") (some "") r).image_answer = "" ∧
          (update_row card_id e nm q a coll none none r).image_question = r.image_question ∧
          (update_row card_id e nm q a coll none none r).image_answer = r.image_answer) := by
  intro card_id e nm q a coll iq ia rows
  constructor
  · show (true, some (rows.foldl
      (fun acc r => acc ++ [update_row card_id e nm q a coll iq ia r]) [])) = _
    rw [foldl_append_map (update_row card_id e nm q a coll iq ia) rows []]
    rfl
  · intro r
    refine ⟨?_, ?_, ?_⟩
    · intro h
      simp [update_row, h]
    · intro h
      simp [update_row, h]
    · intro h
      refine ⟨?_, ?_, ?_, ?_⟩ <;> simp [update_row, h]

/-- Counterexample to C1 as stated: the table holds a card with a stored
question image `"IMG"`; calling update while omitting both image
arguments — which in the code passes the parameter default `''`, not
`None` — clears the stored image instead of preserving it. -/
theorem update_omitted_image_clears_cex :
    (update_flashcard 1 "a@b.c" "n2" "q2" "a2" "" (some "") (some "")
      (some [{ sample_card with image_question := "IMG" }])).2 =
      some [{ sample_card with
              name := "n2", question := "q2", answer := "a2", image_question := "" }] ∧
    ({ sample_card with image_question := "IMG" } : Flashcard).image_question = "IMG" := by
  exact ⟨by decide, rfl⟩

/-- Witness for C1 (amended), at a concrete matching row. -/
theorem update_flashcard_image_semantics_witness :
    update_row 1 "a@b.c" "n2" "q2" "a2" "" (some "") (some "") sample_card =
      { sample_card with
        name := "n2", question := "q2", answer := "a2", collection := "",
        image_question := (some "").getD sample_card.image_question,
        image_answer := (some "").getD sample_card.image_answer } :=
  ((update_flashcard_image_semantics 1 "a@b.c" "n2" "q2" "a2" "" (some "") (some "")
    [sample_card]).2 sample_card).1 (by decide)

/-- Claim C4 (amended): `get_next_flashcard_id` is 1 on a missing or
empty table, and on any table it is one more than the maximum of 0 and
every id that parses as an integer: it is at least 1, strictly greater
than every parsed id, and either 1 or the successor of some stored
parsed id.  (The claim's "maximum id present plus one" fails when every
parsed id is negative, because the running maximum starts at 0.) -/
theorem next_id_spec :
    get_next_flashcard_id none = 1 ∧
    get_next_flashcard_id (some []) = 1 ∧
    ∀ rows : List Flashcard,
      1 ≤ get_next_flashcard_id (some rows) ∧
      (∀ r ∈ rows, ∀ k : Int, str_to_int r.id = some k →
        k < get_next_flashcard_id (some rows)) ∧
      (get_next_flashcard_id (some rows) = 1 ∨
        ∃ r ∈ rows, str_to_int r.id = some (get_next_flashcard_id (some rows) - 1)) := by
  refine ⟨rfl, rfl, ?_⟩
  intro rows
  have hfold := foldl_next_ge rows 0
  refine ⟨?_, ?_, ?_⟩
  · show 1 ≤ rows.foldl next_id_step 0 + 1
    omega
  · intro r hr k hk
    have := foldl_next_mem rows 0 r k hr hk
    show k < rows.foldl next_id_step 0 + 1
    omega
  · rcases foldl_next_cases rows 0 with h | h
    · left
      show rows.foldl next_id_step 0 + 1 = 1
      omega
    · rcases h with ⟨r, hr, hk⟩
      right
      refine ⟨r, hr, ?_⟩
      show str_to_int r.id = some (rows.foldl next_id_step 0 + 1 - 1)
      simpa using hk

/-- Counterexample to C4 as stated: a table whose only card has id
`"-5"`.  The only integer id present is `-5`, so "maximum id present
plus one" is `-4`, but the code returns 1 (its running maximum starts
at 0). -/
theorem next_id_negative_cex :
    get_next_flashcard_id (some [{ sample_card with id := "-5" }]) = 1 ∧
    str_to_int ({ sample_card with id := "-5" } : Flashcard).id = some (-5) ∧
    (-5 : Int) + 1 ≠ 1 :=
  ⟨by decide, by decide, by decide⟩

/-- Witness for C4 (amended): on the table with ids 1, 2, 5 the bound
from the theorem applies at id 5, and the returned next id is 6. -/
theorem next_id_spec_witness :
    (5 : Int) < get_next_flashcard_id
      (some [sample_card, { sample_card with id := "2" }, { sample_card with id := "5" }]) ∧
    get_next_flashcard_id
      (some [sample_card, { sample_card with id := "2" }, { sample_card with id := "5" }]) = 6 :=
  ⟨(next_id_spec.2.2 [sample_card, { sample_card with id := "2" },
      { sample_card with id := "5" }]).2.1
    { sample_card with id := "5" } (by decide) 5 (by decide), by decide⟩

/-- Claim C6 (amended): `get_flashcard_by_id` returns the view of the
first row matching id and owner.  Hence, when no id value repeats in the
table (as holds for ids the application assigns), looking a stored card
up with its id and its owner's email in any case variation returns
exactly that card; and with an email that matches no row carrying the
queried id, it returns not-found even though the id exists. -/
theorem get_by_id_owner_check :
    ∀ (card_id : Int) (e : String) (rows : List Flashcard),
      (∀ c : Flashcard, (rows.map Flashcard.id).Nodup → c ∈ rows →
        c.id = toString card_id → lower c.user_email = lower e →
        get_flashcard_by_id card_id e (some rows) = some c.view) ∧
      ((∀ c ∈ rows, c.id = toString card_id → lower c.user_email ≠ lower e) →
        get_flashcard_by_id card_id e (some rows) = none) := by
  intro card_id e rows
  constructor
  · intro c hnd hmem hid hmail
    show find_card card_id e rows = some c.view
    exact find_card_unique card_id e rows c hnd hmem hid hmail
  · intro h
    show find_card card_id e rows = none
    exact find_card_none card_id e rows h

/-- Counterexample to C6 as stated: two stored rows share id `"1"` and
case-insensitively equal owners.  Looking up the second card with its
own id and its own owner email returns the first card's data, not the
second card. -/
theorem get_by_id_duplicate_cex :
    get_flashcard_by_id 1 "A@B.C" (some [{ sample_card with question := "q1" },
      { sample_card with user_email := "A@B.C", question := "q2" }]) =
      some ({ sample_card with question := "q1" } : Flashcard).view ∧
    ({ sample_card with question := "q1" } : Flashcard).view ≠
      ({ sample_card with user_email := "A@B.C", question := "q2" } : Flashcard).view :=
  ⟨by decide, by decide⟩

/-- Witness for C6 (amended): a stored card is found under a different
case of its owner email, and missed by a non-owner. -/
theorem get_by_id_owner_witness :
    get_flashcard_by_id 1 "A@B.c" (some [sample_card]) = some sample_card.view ∧
    get_flashcard_by_id 1 "z@z.z" (some [sample_card]) = none :=
  ⟨(get_by_id_owner_check 1 "A@B.c" [sample_card]).1 sample_card
      (by decide) (by decide) (by decide) (by decide),
    (get_by_id_owner_check 1 "z@z.z" [sample_card]).2 (by decide)⟩

/-- Claim C2 (amended): migrating an existing file whose header lacks a
marker, every row carrying the required legacy columns, rewrites the
canonical file under the current 9-column header with one card per row
in order, assigns the card at 0-based position `j` the id `j + 1` — all
rows are renumbered, discarding any stored id value — defaults `name`,
`collection`, `image_question`, `image_answer` to `""` when absent,
copies the remaining columns verbatim, and records the original file as
a new backup. -/
theorem migrate_legacy_file (st : FileState) (file : CsvFile)
    (hf : st.flashcards = some file)
    (hm : already_migrated file.headerLine = false)
    (hk : ∀ row ∈ file.rows, legacy_keys_ok row) :
    ∃ cards : List Flashcard,
      migrate_flashcards_csv st = some
        { flashcards := some
            { headerLine := new_header_line, rows := cards.map Flashcard.to_row },
          backups := st.backups ++ [file] } ∧
      cards.length = file.rows.length ∧
      ∀ (j : Nat) (hj : j < file.rows.length) (hj2 : j < cards.length),
        cards.get ⟨j, hj2⟩ =
          { id := toString (j + 1),
            user_email := dict_get (file.rows.get ⟨j, hj⟩) "user_email" "",
            name := dict_get (file.rows.get ⟨j, hj⟩) "name" "",
            question := dict_get (file.rows.get ⟨j, hj⟩) "question" "",
            answer := dict_get (file.rows.get ⟨j, hj⟩) "answer" "",
            image_question := dict_get (file.rows.get ⟨j, hj⟩) "image_question" "",
            image_answer := dict_get (file.rows.get ⟨j, hj⟩) "image_answer" "",
            collection := dict_get (file.rows.get ⟨j, hj⟩) "collection" "",
            created_at := dict_get (file.rows.get ⟨j, hj⟩) "created_at" "" } := by
  obtain ⟨cards, hc, hlen, hpt⟩ := migrate_rows_spec file.rows 1 hk
  refine ⟨cards, ?_, hlen, ?_⟩
  · simp [migrate_flashcards_csv, hf, hm, hc]
  · intro j hj hj2
    have hstep := hpt j hj hj2
    have harith : 1 + j = j + 1 := by omega
    rw [hstep, harith]

/-- Counterexample to C2 as stated: a legacy file whose header lacks the
`collection` marker but whose single row already stores the id `"5"`.
Migration runs and emits the row with id `"1"`: the stored id value is
not carried over, and the sequential renumbering is not restricted to
rows lacking an id. -/
theorem migrate_reassigns_ids_cex :
    migrate_flashcards_csv { flashcards := some c2_legacy_file, backups := [] } =
      some { flashcards := some
               { headerLine := new_header_line, rows := [c2_migrated_row] },
             backups := [c2_legacy_file] } ∧
    List.lookup "id" c2_legacy_row = some "5" ∧
    List.lookup "id" c2_migrated_row = some "1" :=
  ⟨by decide, by decide, by decide⟩

/-- Witness for C2 (amended): the canonical 4-column legacy file with
three rows migrates to three cards under the new header with the
original file backed up. -/
theorem migrate_legacy_file_witness :
    ∃ cards : List Flashcard,
      migrate_flashcards_csv { flashcards := some legacy4_file, backups := [] } = some
        { flashcards := some
            { headerLine := new_header_line, rows := cards.map Flashcard.to_row },
          backups := [legacy4_file] } ∧
      cards.length = 3 := by
  obtain ⟨cards, h1, h2, _⟩ := migrate_legacy_file
    { flashcards := some legacy4_file, backups := [] } legacy4_file rfl (by decide) (by decide)
  exact ⟨cards, h1, h2⟩

/-- Claim C5: `register` checks its four rules in the fixed order — all
fields non-empty, password equals confirmation, password length at
least 6, email not yet registered (case-insensitively) — reporting a
distinct result for each rule and short-circuiting on the first
failure; it appends a user row exactly when every check passes and
leaves the table untouched otherwise.  Consequently a second
registration with the same email in any case variation, passing the
first three checks, always fails with the duplicate-email result. -/
theorem register_spec :
    ∀ (nm em pw cpw : Option String) (now : String) (users : Option (List UserRow)),
      ((register nm em pw cpw now users).1 = RegisterResult.missingFields ↔
        ¬((is_truthy nm && is_truthy em && is_truthy pw && is_truthy cpw) = true)) ∧
      ((register nm em pw cpw now users).1 = RegisterResult.passwordMismatch ↔
        ((is_truthy nm && is_truthy em && is_truthy pw && is_truthy cpw) = true ∧
          pw ≠ cpw)) ∧
      ((register nm em pw cpw now users).1 = RegisterResult.passwordTooShort ↔
        ((is_truthy nm && is_truthy em && is_truthy pw && is_truthy cpw) = true ∧
          pw = cpw ∧ (pw.getD "").length < 6)) ∧
      ((register nm em pw cpw now users).1 = RegisterResult.emailTaken ↔
        ((is_truthy nm && is_truthy em && is_truthy pw && is_truthy cpw) = true ∧
          pw = cpw ∧ ¬((pw.getD "").length < 6) ∧
          email_exists (em.getD "") users = true)) ∧
      ((register nm em pw cpw now users).1 = RegisterResult.success ↔
        ((is_truthy nm && is_truthy em && is_truthy pw && is_truthy cpw) = true ∧
          pw = cpw ∧ ¬((pw.getD "").length < 6) ∧
          email_exists (em.getD "") users = false)) ∧
      ((register nm em pw cpw now users).1 = RegisterResult.success →
        (register nm em pw cpw now users).2 = some ((users.getD []) ++
          [{ name := nm.getD "", email := em.getD "", password := pw.getD "",
             created_at := now }])) ∧
      ((register nm em pw cpw now users).1 ≠ RegisterResult.success →
        (register nm em pw cpw now users).2 = users) ∧
      (∀ (nm2 em2 pw2 cpw2 : Option String) (now2 : String),
        (register nm em pw cpw now users).1 = RegisterResult.success →
        is_truthy nm2 = true → is_truthy em2 = true →
        is_truthy pw2 = true → is_truthy cpw2 = true →
        pw2 = cpw2 → ¬((pw2.getD "").length < 6) →
        lower (em2.getD "") = lower (em.getD "") →
        (register nm2 em2 pw2 cpw2 now2 (register nm em pw cpw now users).2).1 =
          RegisterResult.emailTaken) := by
  intro nm em pw cpw now users
  by_cases hA : (is_truthy nm && is_truthy em && is_truthy pw && is_truthy cpw) = true
  case neg =>
    rw [Bool.not_eq_true] at hA
    have hreg : register nm em pw cpw now users = (.missingFields, users) := by
      simp [register, hA]
    rw [hreg]
    simp [hA]
  case pos =>
  by_cases hB : pw = cpw
  case neg =>
    have hB' : (pw != cpw) = true := bne_iff_ne.mpr hB
    have hreg : register nm em pw cpw now users = (.passwordMismatch, users) := by
      simp [register, hA, hB']
    rw [hreg]
    simp [hA, hB]
  case pos =>
  subst hB
  by_cases hC : (pw.getD "").length < 6
  case pos =>
    have hreg : register nm em pw pw now users = (.passwordTooShort, users) := by
      simp [register, hA, hC]
    rw [hreg]
    simp [hA, hC]
  case neg =>
  cases hD : email_exists (em.getD "") users with
  | true =>
    have hreg : register nm em pw pw now users = (.emailTaken, users) := by
      simp [register, hA, hC, hD]
    rw [hreg]
    simp [hA, hC, hD]
  | false =>
    have hreg : register nm em pw pw now users = (.success, some ((users.getD []) ++
        [{ name := nm.getD "", email := em.getD "", password := pw.getD "",
           created_at := now }])) := by
      simp [register, hA, hC, hD]
    rw [hreg]
    refine ⟨by simp [hA], by simp [hA], by simp [hC], by simp [hD], by simp [hA, hC, hD],
      fun _ => rfl, by simp, ?_⟩
    intro nm2 em2 pw2 cpw2 now2 _ ht1 ht2 ht3 ht4 hpc hlen2 hlow
    subst hpc
    have hA2 : (is_truthy nm2 && is_truthy em2 && is_truthy pw2 && is_truthy pw2) = true := by
      simp [ht1, ht2, ht3, ht4]
    have hex : email_exists (em2.getD "") (some ((users.getD []) ++
        [{ name := nm.getD "", email := em.getD "", password := pw.getD "",
           created_at := now }])) = true := by
      simp only [email_exists, List.any_eq_true]
      refine ⟨{ name := nm.getD "", email := em.getD "", password := pw.getD "",
                created_at := now }, List.mem_append_right _ (List.mem_singleton.mpr rfl), ?_⟩
      exact beq_iff_eq.mpr hlow.symm
    simp [register, hA2, hlen2, hex]

/-- Witness for C5: registering a second time with the case-varied
email `X@Y.Z` of the previously registered `x@y.z` fails with the
duplicate-email result. -/
theorem register_spec_witness :
    (register (some "Carol") (some "X@Y.Z") (some "abcdef") (some "abcdef") "t2"
      (register (some "Bob") (some "x@y.z") (some "secret1") (some "secret1") "t1"
        (some [{ name := "Alice", email := "a@b.c", password := "pw1234",
                 created_at := "t0" }])).2).1 = RegisterResult.emailTaken :=
  (register_spec (some "Bob") (some "x@y.z") (some "secret1") (some "secret1") "t1"
    (some [{ name := "Alice", email := "a@b.c", password := "pw1234",
             created_at := "t0" }])).2.2.2.2.2.2.2
    (some "Carol") (some "X@Y.Z") (some "abcdef") (some "abcdef") "t2"
    (by decide) (by decide) (by decide) (by decide) (by decide) rfl (by decide) (by decide)

end FlashcardsApp
